import Mathlib

set_option maxRecDepth 8000
set_option synthInstance.maxSize 1024
set_option synthInstance.maxHeartbeats 1000000

namespace VCad

/-!
Shallow embedding of the `equation-parser` crate:
`src/equation-parser/src/tokenizer.rs` (lexer) and
`src/equation-parser/src/syntax_tree_creator.rs` (backtracking grammar engine).
Mutable state (the token-iterator index and the exclusion `HashSet`) is made
explicit: every engine function returns its result together with the final
index and the final exclusion set.  Recursion that the Rust code does not
bound structurally is fuelled; a `none` result means the fuel budget ran out.
-/

/-- Model of the pattern strings handed to `regex::Regex::new`.  Only the
regular-expression features the development needs are modelled: literal
strings, greedy one-or-more character classes such as `[a-z]+`, concatenation,
alternation, and the start anchor `^` that `Tokenizer::new` prepends. -/
inductive Rx
  | caret
  | lit (s : List Char)
  | clsPlus (lo hi : Char)
  | cat (a b : Rx)
  | alt (a b : Rx)

/-- Length of the maximal run of characters of the class `[lo-hi]` at the
head of the list. -/
def runLen (lo hi : Char) : List Char → Nat
  | [] => 0
  | c :: cs => if lo.toNat ≤ c.toNat ∧ c.toNat ≤ hi.toNat then runLen lo hi cs + 1 else 0

/-- Candidate end positions of a match of the regex at position `i` of `t`,
in the leftmost-first preference order of the `regex` crate: alternation
prefers its earlier branch, repetition is greedy. -/
def matchEnds : Rx → List Char → Nat → List Nat
  | .caret, _, i => if i = 0 then [0] else []
  | .lit s, t, i => if (t.drop i).take s.length = s then [i + s.length] else []
  | .clsPlus lo hi, t, i =>
      (List.range (runLen lo hi (t.drop i))).map (fun k => i + runLen lo hi (t.drop i) - k)
  | .cat a b, t, i => (matchEnds a t i).flatMap (fun j => matchEnds b t j)
  | .alt a b, t, i => matchEnds a t i ++ matchEnds b t i

/-- `Regex::find`: the leftmost match, as (start, end) character offsets. -/
def rxFind (r : Rx) (t : List Char) : Option (Nat × Nat) :=
  (List.range (t.length + 1)).findSome?
    (fun s => (matchEnds r t s).head?.map (fun e => (s, e)))

/-- `Tokenizer::new` prepends the text `"^"` to each pattern string before
compiling it.  Alternation has the lowest precedence, so the anchor attaches
only to the leftmost top-level alternative: `"^" ++ "a|b"` parses as
`(^a)|b`. -/
def anchorRx : Rx → Rx
  | .alt a b => .alt (anchorRx a) b
  | r => .cat .caret r

/-- `Tokenizer` of `tokenizer.rs`: the compiled (anchored) token patterns in
declaration order, and the compiled whitespace patterns. -/
structure Tokenizer (T : Type) where
  regex_patterns : List (T × Rx)
  white_spaces_chars : List Rx

/-- `Tokenizer::new`.  Pattern compilation is modelled as always succeeding,
since patterns are given here as abstract syntax rather than strings. -/
def Tokenizer.new (tokens : List (T × Rx)) (white_spaces_chars : List Rx) : Tokenizer T :=
  ⟨tokens.map (fun p => (p.1, anchorRx p.2)), white_spaces_chars.map anchorRx⟩

inductive TokenizerError
  | noMatchError (s : List Char)
deriving DecidableEq

/-- Outcome of a Rust computation that can also abort the process: `panicked`
models a Rust panic (such as a byte slice not on a character boundary). -/
inductive TRes (A : Type)
  | ok (a : A)
  | err (e : TokenizerError)
  | panicked
deriving DecidableEq

/-- UTF-8 byte length of a string modelled as a character list. -/
def byteLen (s : List Char) : Nat := (s.map Char.utf8Size).sum

/-- Rust `&text[0..n]` for a byte index `n`: `some` sliced prefix when `n`
falls on a character boundary, `none` (a panic) otherwise. -/
def slicePrefixBytes : List Char → Nat → Option (List Char)
  | _, 0 => some []
  | [], _ + 1 => none
  | c :: cs, n + 1 =>
      if c.utf8Size ≤ n + 1 then
        (slicePrefixBytes cs (n + 1 - c.utf8Size)).map (fun r => c :: r)
      else none

/-- The loop of `Tokenizer::match_token` over `regex_patterns`, plus the
no-match diagnostic `err_msg.push_str(&text[0..10.min(text.len())])`, whose
byte slice panics when it does not fall on a character boundary. -/
def match_token_aux (text : List Char) : List (T × Rx) → TRes (T × List Char × List Char)
  | [] =>
      match slicePrefixBytes text (min 10 (byteLen text)) with
      | some msg => .err (.noMatchError msg)
      | none => .panicked
  | (name, r) :: rest =>
      match rxFind r text with
      | some (s, e) => .ok (name, (text.drop s).take (e - s), text.drop e)
      | none => match_token_aux text rest

/-- `Tokenizer::match_token`: first pattern (in declaration order) whose
regex finds a match wins; returns the kind, the matched lexeme
`match_pattern.as_str()` and the remainder `&text[match_pattern.end()..]`. -/
def Tokenizer.match_token (tz : Tokenizer T) (text : List Char) :
    TRes (T × List Char × List Char) :=
  match_token_aux text tz.regex_patterns

/-- One pass of the inner `for` over the whitespace patterns in
`clear_white_spaces`: the first whitespace pattern that matches strips the
text up to the match's end. -/
def wsStep (ws : List Rx) (text : List Char) : Option (List Char) :=
  ws.findSome? (fun r => (rxFind r text).map (fun p => text.drop p.2))

/-- `Tokenizer::clear_white_spaces`; fuelled because a whitespace pattern
with an empty match leaves the text unchanged and the Rust loop never
exits. -/
def clear_white_spaces (fuel : Nat) (ws : List Rx) (text : List Char) :
    Option (List Char) :=
  match fuel with
  | 0 => none
  | fuel + 1 =>
      match wsStep ws text with
      | none => some text
      | some t2 => clear_white_spaces fuel ws t2

/-- The loop of `Tokenizer::tokenize`: return the accumulated result once
the text is empty (checked before whitespace clearing), otherwise clear
whitespace, match one token and recurse. -/
def tokenizeGo (fuel : Nat) (tz : Tokenizer T) (text : List Char)
    (result : List (T × List Char)) : Option (TRes (List (T × List Char))) :=
  match fuel with
  | 0 => none
  | fuel + 1 =>
      if text = [] then some (.ok result)
      else
        match clear_white_spaces fuel tz.white_spaces_chars text with
        | none => none
        | some text2 =>
            match tz.match_token text2 with
            | .panicked => some .panicked
            | .err e => some (.err e)
            | .ok (name, word, rest) => tokenizeGo fuel tz rest (result ++ [(name, word)])

/-- `Tokenizer::tokenize`. -/
def Tokenizer.tokenize (fuel : Nat) (tz : Tokenizer T) (text : List Char) :
    Option (TRes (List (T × List Char))) :=
  tokenizeGo fuel tz text []

/-!  The grammar engine of `syntax_tree_creator.rs`. -/

/-- The `Box<dyn Error>` values flowing through the engine: the engine's own
`SyntaxTreeCreatorError` variants, or a user (reducer) error of type `E`.
The `downcast_ref::<SyntaxTreeCreatorError>` in `find_symbol` distinguishes
the first two constructors from `user`. -/
inductive PErr (E : Type)
  | unexpectedEOF
  | symbolNotFound
  | user (e : E)
deriving DecidableEq

/-- Rust `Result`. -/
inductive RResult (ε α : Type)
  | ok (a : α)
  | err (e : ε)
deriving DecidableEq

/-- `OptionalSymbols`: one element of a production body. -/
inductive OptionalSymbols (S T : Type)
  | symbol (s : S)
  | token (t : T)
  | eof
deriving DecidableEq

/-- `OptionalResults`: the tag paired with each intermediate value. -/
inductive OptionalResults (S T : Type)
  | symbol (s : S)
  | token (t : T)
deriving DecidableEq

/-- `OptionalInputs`: an element of the analysed stream — a real token or
the `EOF` sentinel appended by `analyze`. -/
inductive OptionalInputs (T : Type)
  | token (t : T)
  | eof
deriving DecidableEq

/-- `PatternType`: head symbol, body, reducer. -/
abbrev PatternType (S T E R : Type) :=
  S × List (OptionalSymbols S T) × (List R → RResult (PErr E) R)

variable {S T E R : Type} [DecidableEq S] [DecidableEq T]

/-- `SyntaxTreeCreator::filter_patterns_by_symbol`. -/
def filter_patterns_by_symbol (pats : List (PatternType S T E R)) (symbol : S) :
    List (PatternType S T E R) :=
  pats.filter (fun p => decide (p.1 = symbol))

/-- `SyntaxTreeCreator::filter_patterns_with_excluded_patterns`. -/
def filter_patterns_with_excluded_patterns
    (exclude_patterns : List (List (OptionalSymbols S T)))
    (patterns : List (PatternType S T E R)) : List (PatternType S T E R) :=
  patterns.filter (fun p => !decide (p.2.1 ∈ exclude_patterns))

/-- `HashSet::insert` on the exclusion set; only membership is ever
observed, so a list with member-checked insertion is a faithful model. -/
def insertExcl (b : List (OptionalSymbols S T))
    (excl : List (List (OptionalSymbols S T))) : List (List (OptionalSymbols S T)) :=
  if b ∈ excl then excl else b :: excl

mutual

/-- `SyntaxTreeCreator::match_pattern`, walking `body` with running element
index `idx`; `full` is the whole enclosing body (`pattern.clone()` is
inserted into the derived exclusion set when a nonterminal sits at index 0).
Returns (result, final iterator index, final exclusion set).  Note that the
`Token` arm advances the iterator before checking, that it clears the shared
exclusion set on success, and that the `Symbol` arm hands the recursive call
a temporary copy of the set whose final state is discarded. -/
def match_pattern (fuel : Nat) (pats : List (PatternType S T E R)) (t2v : T → List Char → R)
    (full body : List (OptionalSymbols S T)) (idx : Nat)
    (toks : List (OptionalInputs T × List Char)) (i : Nat)
    (excl : List (List (OptionalSymbols S T)))
    (values : List (OptionalResults S T × R)) :
    Option (RResult (PErr E) (List (OptionalResults S T × R)) × Nat ×
      List (List (OptionalSymbols S T))) :=
  match fuel with
  | 0 => none
  | fuel + 1 =>
      match body with
      | [] => some (.ok values, i, excl)
      | .token tk :: rest =>
          match toks[i]? with
          | none => some (.err .unexpectedEOF, i, excl)
          | some (.eof, _) => some (.err .symbolNotFound, i + 1, excl)
          | some (.token tok, word) =>
              if tk = tok then
                match_pattern fuel pats t2v full rest (idx + 1) toks (i + 1) []
                  (values ++ [(.token tk, t2v tk word)])
              else some (.err .symbolNotFound, i + 1, excl)
      | .symbol s :: rest =>
          match find_symbol fuel pats t2v toks s i
              (if idx = 0 then insertExcl full excl else excl) with
          | none => none
          | some (.err e, i2, _) => some (.err e, i2, excl)
          | some (.ok v, i2, _) =>
              match_pattern fuel pats t2v full rest (idx + 1) toks i2 excl
                (values ++ [(.symbol s, v)])
      | .eof :: rest =>
          match_pattern fuel pats t2v full rest (idx + 1) toks i [] values
termination_by structural fuel

/-- The candidate loop of `SyntaxTreeCreator::find_symbol`: before each
candidate the iterator is reset to `startState`; a `SymbolNotFound` failure
is discarded and the loop continues (with the exclusion set as the failed
attempt left it), any other failure — `UnexpectedEOF`, a reducer error —
returns immediately; when the candidates are exhausted the loop fails with
`SymbolNotFound`. -/
def find_loop (fuel : Nat) (pats : List (PatternType S T E R)) (t2v : T → List Char → R)
    (toks : List (OptionalInputs T × List Char))
    (cands : List (PatternType S T E R)) (startState cur : Nat)
    (excl : List (List (OptionalSymbols S T))) :
    Option (RResult (PErr E) R × Nat × List (List (OptionalSymbols S T))) :=
  match fuel with
  | 0 => none
  | fuel + 1 =>
      match cands with
      | [] => some (.err .symbolNotFound, cur, excl)
      | (_, pattern, func) :: rest =>
          match match_pattern fuel pats t2v pattern pattern 0 toks startState excl [] with
          | none => none
          | some (.ok vals, i2, excl2) =>
              match func (vals.map (fun p => p.2)) with
              | .ok v => some (.ok v, i2, excl2)
              | .err e => some (.err e, i2, excl2)
          | some (.err e, i2, excl2) =>
              match e with
              | .symbolNotFound => find_loop fuel pats t2v toks rest startState i2 excl2
              | _ => some (.err e, i2, excl2)
termination_by structural fuel

/-- `SyntaxTreeCreator::find_symbol`: filter the grammar down to the
candidates for `expected_symbol` that are not excluded (the filtering uses
the exclusion set as it is on entry, once), then run the candidate loop. -/
def find_symbol (fuel : Nat) (pats : List (PatternType S T E R)) (t2v : T → List Char → R)
    (toks : List (OptionalInputs T × List Char)) (expected_symbol : S) (i : Nat)
    (excl : List (List (OptionalSymbols S T))) :
    Option (RResult (PErr E) R × Nat × List (List (OptionalSymbols S T))) :=
  match fuel with
  | 0 => none
  | fuel + 1 =>
      find_loop fuel pats t2v toks
        (filter_patterns_with_excluded_patterns excl
          (filter_patterns_by_symbol pats expected_symbol)) i i excl
termination_by structural fuel

end

/-- `SyntaxTreeCreator::analyze`: wrap the caller's tokens, append the
`EOF` sentinel, and resolve the start symbol with a fresh exclusion set. -/
def analyze (fuel : Nat) (pats : List (PatternType S T E R)) (t2v : T → List Char → R)
    (tokens : List (T × List Char)) (expected_symbol : S) :
    Option (RResult (PErr E) R) :=
  (find_symbol fuel pats t2v
      (tokens.map (fun p => (OptionalInputs.token p.1, p.2)) ++ [(OptionalInputs.eof, [])])
      expected_symbol 0 []).map (fun r => r.1)

/-!  Concrete instances used to settle the claims. -/

/-- Nonterminals of the concrete example grammars. -/
inductive Sym | S | P | V | A
deriving DecidableEq

/-- Token kinds of the concrete example grammars. -/
inductive Tok | num | plus | a | b
deriving DecidableEq

/-- Token kinds of the concrete lexicons. -/
inductive TTok | kw | id | ta | t0
deriving DecidableEq

/-- User result values of the concrete example grammars. -/
inductive Val
  | v (n : Nat)
  | num (w : List Char)
  | add (x y : Val)
  | tokv (t : Tok)
deriving DecidableEq

/-- Concrete `token_and_value_to_func_result`. -/
def t2vC : Tok → List Char → Val := fun t w =>
  match t with
  | .num => .num w
  | _ => .tokv t

/-- Reducer of the binary alternative `S -> S '+' S`. -/
def addReducer : List Val → RResult (PErr Nat) Val := fun vs =>
  match vs with
  | [x, _, y] => .ok (.add x y)
  | _ => .err (.user 0)

/-- Reducer forwarding a single matched value. -/
def singleReducer : List Val → RResult (PErr Nat) Val := fun vs =>
  match vs with
  | [x] => .ok x
  | _ => .err (.user 0)

/-- Claim C1's grammar `S -> S '+' S | NUM`. -/
def pats1 : List (PatternType Sym Tok Nat Val) :=
  [ (Sym.S, [.symbol .S, .token .plus, .symbol .S], addReducer),
    (Sym.S, [.token .num], singleReducer) ]

/-- The token stream of `"1+2+3"`. -/
def toks1 : List (Tok × List Char) :=
  [(.num, ['1']), (.plus, ['+']), (.num, ['2']), (.plus, ['+']), (.num, ['3'])]

/-- Claim C2's grammar: first alternative runs past the end of the stream,
second would succeed. -/
def pats2 : List (PatternType Sym Tok Nat Val) :=
  [ (Sym.S, [.token .a, .token .b], fun _ => .ok (.v 1)),
    (Sym.S, [.token .a], fun _ => .ok (.v 2)) ]

/-- Claim C3's grammar: `P -> V EndMarker`, `V -> 'a'`. -/
def pats3 : List (PatternType Sym Tok Nat Val) :=
  [ (Sym.P, [.symbol .V, .eof], singleReducer),
    (Sym.V, [.token .a], singleReducer) ]

/-- Claim C4's grammar: the first alternative matches but its reducer always
fails with the semantic error `user 7`; the second would match and succeed. -/
def pats4 : List (PatternType Sym Tok Nat Val) :=
  [ (Sym.S, [.token .a], fun _ => .err (.user 7)),
    (Sym.S, [.token .a], fun _ => .ok (.v 1)) ]

/-- Claim C9's grammar: the first `S` alternative consumes a terminal
(clearing the exclusion set) and then fails; the second resolves `A`, whose
only body is the one held in the entry exclusion set. -/
def pats9 : List (PatternType Sym Tok Nat Val) :=
  [ (Sym.S, [.token .a, .token .b], fun _ => .ok (.v 1)),
    (Sym.S, [.symbol .A], singleReducer),
    (Sym.A, [.token .a], fun _ => .ok (.v 5)) ]

/-- Concrete tokenizer of claim C6: lexicon `[(KW,"if"), (ID,"[a-z]+")]`. -/
def tzC6 : Tokenizer TTok :=
  Tokenizer.new [(.kw, .lit ['i', 'f']), (.id, .clsPlus 'a' 'z')] [.lit [' ']]

/-- Concrete tokenizer of claim C7: lexicon `[(A,"a")]`, whitespace `" "`. -/
def tzC7 : Tokenizer TTok :=
  Tokenizer.new [(.ta, .lit ['a'])] [.lit [' ']]

/-- Concrete tokenizer of claim C8: lexicon `[(T0,"a|b")]`, a pattern with a
top-level alternation. -/
def tzC8 : Tokenizer TTok :=
  Tokenizer.new [(.t0, .alt (.lit ['a']) (.lit ['b']))] []

/-- Concrete tokenizer of claim C10: lexicon `[(A,"a")]`, no whitespace. -/
def tzC10 : Tokenizer TTok :=
  Tokenizer.new [(.ta, .lit ['a'])] []

/-- The token stream used by claim C9: one `a` token plus the `EOF`
sentinel, as `analyze` would build it. -/
def toks9 : List (OptionalInputs Tok × List Char) :=
  [(.token .a, []), (.eof, [])]

/-- Whether a pattern has a top-level alternation; the textually prepended
`^` of `Tokenizer::new` anchors only the first branch of such a pattern. -/
def hasTopAlt : Rx → Bool
  | .alt _ _ => true
  | _ => false

/-!  Helper lemmas. -/

/-- `match_token` on an empty remainder, when no token pattern matches the
empty string, reports `NoMatchError` with an empty diagnostic. -/
theorem match_token_aux_nil_text {A : Type} (ps : List (A × Rx))
    (h : ∀ p ∈ ps, rxFind p.2 [] = none) :
    match_token_aux ([] : List Char) ps = .err (.noMatchError []) := by
  induction ps with
  | nil => rfl
  | cons p rest ih =>
      obtain ⟨name, r⟩ := p
      have hp := h (name, r) (List.mem_cons_self _ _)
      simp only [match_token_aux, hp]
      exact ih (fun q hq => h q (List.mem_cons_of_mem _ hq))

/-- A pattern without top-level alternation is anchored as a whole by the
prepended `^`: it can only match at offset 0. -/
theorem anchorRx_matchEnds_pos {r : Rx} (hr : hasTopAlt r = false)
    {t : List Char} {i : Nat} (h : matchEnds (anchorRx r) t i ≠ []) : i = 0 := by
  by_contra hi
  apply h
  cases r with
  | alt a b => simp [hasTopAlt] at hr
  | caret => simp [anchorRx, matchEnds, hi]
  | lit s => simp [anchorRx, matchEnds, hi]
  | clsPlus lo hi2 => simp [anchorRx, matchEnds, hi]
  | cat a b => simp [anchorRx, matchEnds, hi]

/-- `rxFind` on an anchored pattern without top-level alternation only
reports matches starting at offset 0. -/
theorem rxFind_anchor_start {r : Rx} (hr : hasTopAlt r = false) {t : List Char}
    {s e : Nat} (h : rxFind (anchorRx r) t = some (s, e)) : s = 0 := by
  obtain ⟨a, _, hf⟩ := List.exists_of_findSome?_eq_some h
  cases ho : (matchEnds (anchorRx r) t a).head? with
  | none => rw [ho] at hf; simp at hf
  | some e2 =>
      rw [ho] at hf
      simp only [Option.map_some'] at hf
      obtain ⟨h1, h2⟩ := Prod.mk.injEq .. ▸ Option.some.inj hf
      subst h1
      apply anchorRx_matchEnds_pos hr
      intro hnil
      rw [hnil] at ho
      simp at ho

/-- When every token pattern in the lexicon is free of top-level
alternation, every lexeme `match_token` emits is a prefix of the remaining
text and the returned remainder is the rest. -/
theorem match_token_aux_lex {A : Type} {ps : List (A × Rx)}
    (hps : ∀ p ∈ ps, ∃ r0, p.2 = anchorRx r0 ∧ hasTopAlt r0 = false) :
    ∀ {text : List Char} {name : A} {lex rest : List Char},
      match_token_aux text ps = .ok (name, lex, rest) → lex ++ rest = text := by
  induction ps with
  | nil =>
      intro text name lex rest h
      cases hs : slicePrefixBytes text (min 10 (byteLen text)) <;>
        simp [match_token_aux, hs] at h
  | cons p rest2 ih =>
      intro text name lex rest h
      obtain ⟨nm, r⟩ := p
      obtain ⟨r0, hp2, hr0⟩ := hps (nm, r) (List.mem_cons_self _ _)
      simp only at hp2
      subst hp2
      cases hf : rxFind (anchorRx r0) text with
      | none =>
          simp only [match_token_aux, hf] at h
          exact ih (fun q hq => hps q (List.mem_cons_of_mem _ hq)) h
      | some se =>
          obtain ⟨s, e⟩ := se
          have hs0 : s = 0 := rxFind_anchor_start hr0 hf
          subst hs0
          simp only [match_token_aux, hf] at h
          simp only [TRes.ok.injEq, Prod.mk.injEq] at h
          obtain ⟨-, h2, h3⟩ := h
          rw [← h2, ← h3]
          simp only [List.drop_zero, Nat.sub_zero, List.take_append_drop]

/-- One whitespace-skip step always removes a prefix of the text: the code
keeps `&text[match.end()..]`, a suffix. -/
theorem wsStep_suffix {ws : List Rx} {text t2 : List Char}
    (h : wsStep ws text = some t2) : ∃ pre, pre ++ t2 = text := by
  obtain ⟨r, _, hf⟩ := List.exists_of_findSome?_eq_some h
  cases hfind : rxFind r text with
  | none => rw [hfind] at hf; simp at hf
  | some se =>
      rw [hfind] at hf
      obtain ⟨s, e⟩ := se
      simp only [Option.map_some'] at hf
      obtain rfl := Option.some.inj hf
      exact ⟨text.take e, List.take_append_drop e text⟩

/-!  Claim theorems. -/

/-- Claim C1: for the left-recursive grammar `S -> S '+' S | NUM`, `analyze`
on the token stream of `"1+2+3"` terminates within a finite call budget
(every recursive call consumes one unit of fuel, so a `some` result means
the recursion is finite) and succeeds; and in general the guard works
because inserting the enclosing body into the derived exclusion set removes
every candidate with that body from the list the inner `find_symbol` call
iterates over, so the left-recursive alternative cannot be re-selected by
that immediate recursive call at the unchanged position. -/
theorem claim_c1 :
    analyze 500 pats1 t2vC toks1 Sym.S =
      some (.ok (.add (.num ['1']) (.add (.num ['2']) (.num ['3'])))) ∧
    ∀ (pats : List (PatternType S T E R)) (full : List (OptionalSymbols S T))
      (excl : List (List (OptionalSymbols S T))) (q : PatternType S T E R),
      q ∈ filter_patterns_with_excluded_patterns (insertExcl full excl) pats →
      q.2.1 ≠ full := by
  constructor
  · decide
  · intro pats full excl q hq heq
    have hmem := List.of_mem_filter hq
    simp only [Bool.not_eq_true', decide_eq_false_iff_not] at hmem
    apply hmem
    rw [heq]
    unfold insertExcl
    split
    · assumption
    · exact List.mem_cons_self _ _

/-- Claim C1 witness: in the grammar `S -> S '+' S | NUM`, filtering the
candidates under the derived exclusion set that holds the left-recursive
body leaves only the `NUM` alternative, whose body differs from it. -/
theorem claim_c1_witness :
    (Sym.S, [OptionalSymbols.token Tok.num], singleReducer) ∈
      filter_patterns_with_excluded_patterns
        (insertExcl
          [OptionalSymbols.symbol Sym.S, OptionalSymbols.token Tok.plus,
            OptionalSymbols.symbol Sym.S]
          ([] : List (List (OptionalSymbols Sym Tok)))) pats1 ∧
    ([OptionalSymbols.token Tok.num] : List (OptionalSymbols Sym Tok)) ≠
      [OptionalSymbols.symbol Sym.S, OptionalSymbols.token Tok.plus,
        OptionalSymbols.symbol Sym.S] := by
  have hm : (Sym.S, [OptionalSymbols.token Tok.num], singleReducer) ∈
      filter_patterns_with_excluded_patterns
        (insertExcl
          [OptionalSymbols.symbol Sym.S, OptionalSymbols.token Tok.plus,
            OptionalSymbols.symbol Sym.S]
          ([] : List (List (OptionalSymbols Sym Tok)))) pats1 := by
    show _ ∈ [(Sym.S, [OptionalSymbols.token Tok.num], singleReducer)]
    exact List.mem_singleton.mpr rfl
  exact ⟨hm, claim_c1.2 pats1 _ _ _ hm⟩

/-- Claim C3 counterexample: with the grammar `P -> V EndMarker`, `V -> 'a'`
and the two-token stream of `"a a"`, the production requiring `EndMarker`
does not fail with `SymbolNotFound` on the trailing unconsumed token:
`analyze` succeeds. -/
theorem claim_c3_counterexample :
    analyze 100 pats3 t2vC [(Tok.a, ['x']), (Tok.a, ['y'])] Sym.P =
      some (.ok (.tokv .a)) ∧
    analyze 100 pats3 t2vC [(Tok.a, ['x']), (Tok.a, ['y'])] Sym.P ≠
      some (.err PErr.symbolNotFound) := by
  constructor
  · decide
  · decide

/-- Claim C3 (amended): the `EndMarker` body element never fails and never
consults the cursor: it clears the exclusion set, consumes no input,
produces no value, and matching continues with the rest of the body;
consequently a production requiring `EndMarker` can succeed even when
trailing unconsumed tokens remain. -/
theorem claim_c3 :
    (∀ (fuel : Nat) (pats : List (PatternType S T E R)) (t2v : T → List Char → R)
      (full rest : List (OptionalSymbols S T)) (idx : Nat)
      (toks : List (OptionalInputs T × List Char)) (i : Nat)
      (excl : List (List (OptionalSymbols S T)))
      (values : List (OptionalResults S T × R)),
      match_pattern (fuel + 1) pats t2v full (.eof :: rest) idx toks i excl values =
        match_pattern fuel pats t2v full rest (idx + 1) toks i [] values) ∧
    analyze 100 pats3 t2vC [(Tok.a, ['x']), (Tok.a, ['y'])] Sym.P =
      some (.ok (.tokv .a)) := by
  constructor
  · intro fuel pats t2v full rest idx toks i excl values
    rfl
  · decide

/-- Claim C5: the `Terminal(tok)` body element fails with `UnexpectedEOF`
when the stream is exhausted at the cursor, fails with `SymbolNotFound` when
the token kind at the cursor differs from `tok` (or is the `End` sentinel),
and otherwise advances the cursor by exactly one token, clears the exclusion
set entirely, and appends `tokenToValue(tok, lexeme)` to the accumulated
values. -/
theorem claim_c5 (fuel : Nat) (pats : List (PatternType S T E R))
    (t2v : T → List Char → R) (full : List (OptionalSymbols S T)) (tk : T)
    (rest : List (OptionalSymbols S T)) (idx : Nat)
    (toks : List (OptionalInputs T × List Char)) (i : Nat)
    (excl : List (List (OptionalSymbols S T)))
    (values : List (OptionalResults S T × R)) :
    (toks[i]? = none →
      match_pattern (fuel + 1) pats t2v full (.token tk :: rest) idx toks i excl values =
        some (.err .unexpectedEOF, i, excl)) ∧
    (∀ tok word, toks[i]? = some (.token tok, word) → tk ≠ tok →
      match_pattern (fuel + 1) pats t2v full (.token tk :: rest) idx toks i excl values =
        some (.err .symbolNotFound, i + 1, excl)) ∧
    (∀ word, toks[i]? = some (.eof, word) →
      match_pattern (fuel + 1) pats t2v full (.token tk :: rest) idx toks i excl values =
        some (.err .symbolNotFound, i + 1, excl)) ∧
    (∀ word, toks[i]? = some (.token tk, word) →
      match_pattern (fuel + 1) pats t2v full (.token tk :: rest) idx toks i excl values =
        match_pattern fuel pats t2v full rest (idx + 1) toks (i + 1) []
          (values ++ [(.token tk, t2v tk word)])) := by
  refine ⟨fun h => ?_, fun tok word h hne => ?_, fun word h => ?_, fun word h => ?_⟩
  · simp [match_pattern, h]
  · simp [match_pattern, h, hne]
  · simp [match_pattern, h]
  · simp [match_pattern, h]

/-- Claim C5 witness: the four `Terminal` cases evaluated on concrete
states: exhausted stream, mismatching token, `End` sentinel, and a
successful consumption. -/
theorem claim_c5_witness :
    match_pattern (S := Sym) (E := Nat) 3 [] t2vC [] [.token Tok.a] 0 [] 0 [] [] =
      some (.err .unexpectedEOF, 0, []) ∧
    match_pattern (S := Sym) (E := Nat) 3 [] t2vC [] [.token Tok.b] 0
        [(.token Tok.a, ['x']), (.eof, [])] 0 [] [] =
      some (.err .symbolNotFound, 1, []) ∧
    match_pattern (S := Sym) (E := Nat) 3 [] t2vC [] [.token Tok.a] 0
        [(.token Tok.a, ['x']), (.eof, [])] 1 [] [] =
      some (.err .symbolNotFound, 2, []) ∧
    match_pattern (S := Sym) (E := Nat) 3 [] t2vC [] [.token Tok.a] 0
        [(.token Tok.a, ['x']), (.eof, [])] 0 [[.eof]] [] =
      match_pattern (S := Sym) (E := Nat) 2 [] t2vC [] [] 1
        [(.token Tok.a, ['x']), (.eof, [])] 1 [] [(.token Tok.a, .tokv Tok.a)] := by
  refine ⟨?_, ?_, ?_, ?_⟩
  · exact (claim_c5 2 [] t2vC [] Tok.a [] 0 [] 0 [] []).1 rfl
  · exact (claim_c5 2 [] t2vC [] Tok.b [] 0
      [(.token Tok.a, ['x']), (.eof, [])] 0 [] []).2.1 Tok.a ['x'] rfl (by decide)
  · exact (claim_c5 2 [] t2vC [] Tok.a [] 0
      [(.token Tok.a, ['x']), (.eof, [])] 1 [] []).2.2.1 [] rfl
  · exact (claim_c5 2 [] t2vC [] Tok.a [] 0
      [(.token Tok.a, ['x']), (.eof, [])] 0 [[.eof]] []).2.2.2 ['x'] rfl

/-- Claim C2 counterexample: with the grammar `S -> 'a' 'b' | 'a'` and a
stream holding the single token `'a'` (no sentinel, as `find_symbol` itself
receives it), the first candidate fails with `UnexpectedEOF` and the loop
does NOT continue with the next candidate: `find_symbol` returns
`UnexpectedEOF` immediately, although the remaining alternative alone
succeeds on the same stream. -/
theorem claim_c2_counterexample :
    find_symbol 100 pats2 t2vC [(.token Tok.a, ['x'])] Sym.S 0 [] =
      some (.err .unexpectedEOF, 1, []) ∧
    find_symbol 100 (pats2.drop 1) t2vC [(.token Tok.a, ['x'])] Sym.S 0 [] =
      some (.ok (.v 2), 1, []) := by
  exact ⟨by decide, by decide⟩

/-- Claim C2 (amended): the ordered-choice loop discards only
`SymbolNotFound` and then continues with the next candidate (carrying the
exclusion set the failed attempt left behind); an `UnexpectedEOF` failure
from `match_pattern` is not discarded — it propagates immediately out of the
loop without trying any further candidate. -/
theorem claim_c2 (fuel : Nat) (pats : List (PatternType S T E R))
    (t2v : T → List Char → R) (toks : List (OptionalInputs T × List Char))
    (sh : S) (body : List (OptionalSymbols S T)) (func : List R → RResult (PErr E) R)
    (rest : List (PatternType S T E R)) (startState cur : Nat)
    (excl : List (List (OptionalSymbols S T))) (i2 : Nat)
    (excl2 : List (List (OptionalSymbols S T))) :
    (match_pattern fuel pats t2v body body 0 toks startState excl [] =
        some (.err .symbolNotFound, i2, excl2) →
      find_loop (fuel + 1) pats t2v toks ((sh, body, func) :: rest) startState cur excl =
        find_loop fuel pats t2v toks rest startState i2 excl2) ∧
    (match_pattern fuel pats t2v body body 0 toks startState excl [] =
        some (.err .unexpectedEOF, i2, excl2) →
      find_loop (fuel + 1) pats t2v toks ((sh, body, func) :: rest) startState cur excl =
        some (.err .unexpectedEOF, i2, excl2)) := by
  refine ⟨fun h => ?_, fun h => ?_⟩
  · simp [find_loop, h]
  · simp [find_loop, h]

/-- Claim C2 witness: both shapes instantiated on the grammar of the
counterexample — a `SymbolNotFound` head failure steps to the next
candidate, an `UnexpectedEOF` head failure returns at once. -/
theorem claim_c2_witness :
    find_loop 51 pats9 t2vC toks9
        ((Sym.S, [.token Tok.a, .token Tok.b], fun _ => RResult.ok (Val.v 1)) ::
          pats9.drop 1) 0 0 [[.token Tok.a]] =
      find_loop 50 pats9 t2vC toks9 (pats9.drop 1) 0 2 [] ∧
    find_loop 51 pats2 t2vC [(.token Tok.a, ['x'])]
        ((Sym.S, [.token Tok.a, .token Tok.b], fun _ => RResult.ok (Val.v 1)) ::
          pats2.drop 1) 0 0 [] =
      some (.err .unexpectedEOF, 1, []) := by
  constructor
  · exact (claim_c2 50 pats9 t2vC toks9 Sym.S [.token Tok.a, .token Tok.b]
      (fun _ => RResult.ok (Val.v 1)) (pats9.drop 1) 0 0 [[.token Tok.a]] 2 []).1
      (by decide)
  · exact (claim_c2 50 pats2 t2vC [(.token Tok.a, ['x'])] Sym.S
      [.token Tok.a, .token Tok.b] (fun _ => RResult.ok (Val.v 1)) (pats2.drop 1)
      0 0 [] 1 []).2 (by decide)

/-- Claim C4: a reducer failure is committed and non-backtrackable.  First,
when a candidate's body matches and its reducer returns an error, the loop
returns that exact error immediately, trying no further candidate for the
same symbol.  Second, a `user` (semantic) error arriving from a nested
attempt likewise propagates through the loop of every enclosing symbol
instead of being discarded.  Third, end to end: with the grammar whose first
alternative matches but whose reducer always fails with `user 7`, `analyze`
returns exactly that error although the untried second alternative would
have matched and succeeded. -/
theorem claim_c4 :
    (∀ (fuel : Nat) (pats : List (PatternType S T E R)) (t2v : T → List Char → R)
      (toks : List (OptionalInputs T × List Char)) (sh : S)
      (body : List (OptionalSymbols S T)) (func : List R → RResult (PErr E) R)
      (rest : List (PatternType S T E R)) (startState cur : Nat)
      (excl : List (List (OptionalSymbols S T)))
      (vals : List (OptionalResults S T × R)) (i2 : Nat)
      (excl2 : List (List (OptionalSymbols S T))) (err : PErr E),
      match_pattern fuel pats t2v body body 0 toks startState excl [] =
        some (.ok vals, i2, excl2) →
      func (vals.map (fun p => p.2)) = .err err →
      find_loop (fuel + 1) pats t2v toks ((sh, body, func) :: rest) startState cur excl =
        some (.err err, i2, excl2)) ∧
    (∀ (fuel : Nat) (pats : List (PatternType S T E R)) (t2v : T → List Char → R)
      (toks : List (OptionalInputs T × List Char)) (sh : S)
      (body : List (OptionalSymbols S T)) (func : List R → RResult (PErr E) R)
      (rest : List (PatternType S T E R)) (startState cur : Nat)
      (excl : List (List (OptionalSymbols S T))) (i2 : Nat)
      (excl2 : List (List (OptionalSymbols S T))) (e : E),
      match_pattern fuel pats t2v body body 0 toks startState excl [] =
        some (.err (.user e), i2, excl2) →
      find_loop (fuel + 1) pats t2v toks ((sh, body, func) :: rest) startState cur excl =
        some (.err (.user e), i2, excl2)) ∧
    analyze 100 pats4 t2vC [(Tok.a, ['x'])] Sym.S = some (.err (.user 7)) := by
  refine ⟨?_, ?_, by decide⟩
  · intro fuel pats t2v toks sh body func rest startState cur excl vals i2 excl2 err h hf
    simp [find_loop, h, hf]
  · intro fuel pats t2v toks sh body func rest startState cur excl i2 excl2 e h
    simp [find_loop, h]

/-- Claim C4 witness: the loop-level parts instantiated on the grammar of
the concrete scenario — the first candidate's body matches, its reducer
fails with `user 7`, and the loop with the untried second alternative still
present returns the reducer error at once; a body failing with a nested
`user 7` likewise aborts the loop of the enclosing symbol. -/
theorem claim_c4_witness :
    find_loop 51 pats4 t2vC [(.token Tok.a, ['x']), (.eof, [])] pats4 0 0 [] =
      some (.err (.user 7), 1, []) ∧
    find_loop 51 pats4 t2vC [(.token Tok.a, ['x']), (.eof, [])]
        ((Sym.P, [.symbol Sym.S], singleReducer) :: pats4) 0 0 [] =
      some (.err (.user 7), 1, []) := by
  constructor
  · exact claim_c4.1 50 pats4 t2vC [(.token Tok.a, ['x']), (.eof, [])] Sym.S
      [.token Tok.a] (fun _ => RResult.err (PErr.user 7)) (pats4.drop 1) 0 0 []
      [(.token Tok.a, .tokv Tok.a)] 1 [] (.user 7) (by decide) rfl
  · exact claim_c4.2.1 50 pats4 t2vC [(.token Tok.a, ['x']), (.eof, [])] Sym.P
      [.symbol Sym.S] singleReducer pats4 0 0 [] 1 [] 7 (by decide)

/-- Claim C9: the exclusion-set clears performed while a candidate's body
consumed terminals (or `EndMarker`s) are not undone when that candidate
fails: the loop retries the siblings at the reset cursor position but with
the exclusion set exactly as the failed attempt left it, not the set in
force on entry to `find_symbol`.  Concretely, with entry exclusions holding
`A`'s only body, `S`'s first candidate consumes `'a'` (clearing the set) and
fails, after which the sibling `S -> A` succeeds — while resolving `A`
directly under the un-cleared entry set fails. -/
theorem claim_c9 :
    (∀ (fuel : Nat) (pats : List (PatternType S T E R)) (t2v : T → List Char → R)
      (toks : List (OptionalInputs T × List Char)) (sh : S)
      (body : List (OptionalSymbols S T)) (func : List R → RResult (PErr E) R)
      (rest : List (PatternType S T E R)) (startState cur : Nat)
      (excl : List (List (OptionalSymbols S T))) (i2 : Nat)
      (excl2 : List (List (OptionalSymbols S T))),
      match_pattern fuel pats t2v body body 0 toks startState excl [] =
        some (.err .symbolNotFound, i2, excl2) →
      find_loop (fuel + 1) pats t2v toks ((sh, body, func) :: rest) startState cur excl =
        find_loop fuel pats t2v toks rest startState i2 excl2) ∧
    find_symbol 100 pats9 t2vC toks9 Sym.S 0 [[.token Tok.a]] =
      some (.ok (.v 5), 1, []) ∧
    find_symbol 100 pats9 t2vC toks9 Sym.A 0 [[.token Tok.a]] =
      some (.err .symbolNotFound, 0, [[.token Tok.a]]) := by
  refine ⟨?_, by decide, by decide⟩
  intro fuel pats t2v toks sh body func rest startState cur excl i2 excl2 h
  simp [find_loop, h]

/-- Claim C9 witness: the loop-step equation instantiated on the concrete
grammar: `S`'s first candidate fails with `SymbolNotFound` after consuming
`'a'`, and the loop continues with the sibling under the cleared exclusion
set. -/
theorem claim_c9_witness :
    find_loop 51 pats9 t2vC toks9
        ((Sym.S, [.token Tok.a, .token Tok.b], fun _ => RResult.ok (Val.v 1)) ::
          [(Sym.S, [.symbol Sym.A], singleReducer)]) 0 0 [[.token Tok.a]] =
      find_loop 50 pats9 t2vC toks9 [(Sym.S, [.symbol Sym.A], singleReducer)] 0 2 [] := by
  exact claim_c9.1 50 pats9 t2vC toks9 Sym.S [.token Tok.a, .token Tok.b]
    (fun _ => RResult.ok (Val.v 1)) [(Sym.S, [.symbol Sym.A], singleReducer)]
    0 0 [[.token Tok.a]] 2 [] (by decide)

/-- Claim C6: `match_token` attempts the token patterns in their declared
order and emits the first pattern that finds a match — later patterns are
never consulted, whatever they are; in particular for the lexicon
`[(KW,"if"), (ID,"[a-z]+")]` tokenizing `"if"` yields the single token `KW`,
never `ID`. -/
theorem claim_c6 :
    tzC6.tokenize 50 ['i', 'f'] = some (.ok [(.kw, ['i', 'f'])]) ∧
    ∀ (A : Type) (name : A) (r : Rx) (rest : List (A × Rx)) (text : List Char)
      (s e : Nat),
      rxFind r text = some (s, e) →
      match_token_aux text ((name, r) :: rest) =
        .ok (name, (text.drop s).take (e - s), text.drop e) := by
  refine ⟨by decide, ?_⟩
  intro A name r rest text s e h
  simp [match_token_aux, h]

/-- Claim C6 witness: the first-pattern-wins rule applied to the compiled
`"if"`/`"[a-z]+"` lexicon on the text `"if"`. -/
theorem claim_c6_witness :
    match_token_aux ['i', 'f']
        [(TTok.kw, anchorRx (.lit ['i', 'f'])), (TTok.id, anchorRx (.clsPlus 'a' 'z'))] =
      .ok (.kw, ['i', 'f'], []) := by
  exact claim_c6.2 TTok TTok.kw (anchorRx (.lit ['i', 'f']))
    [(TTok.id, anchorRx (.clsPlus 'a' 'z'))] ['i', 'f'] 0 2 (by decide)

/-- Claim C7 counterexample: with the lexicon `[(A,"a")]` and whitespace
`" "`, tokenizing `"a "` (a token followed only by trailing whitespace) does
not return the matched tokens: it fails with `NoMatchError` on the empty
remainder, and so does tokenizing the all-whitespace input `" "` (the claim
says that yields an empty stream). -/
theorem claim_c7_counterexample :
    tzC7.tokenize 50 ['a', ' '] = some (.err (.noMatchError [])) ∧
    tzC7.tokenize 50 [' '] = some (.err (.noMatchError [])) := by
  exact ⟨by decide, by decide⟩

/-- Claim C7 (amended): `tokenize` succeeds exactly when the input is
exhausted immediately after a token match (or is empty from the start),
because emptiness is checked before whitespace clearing: on empty input it
returns the accumulated tokens at once; when whitespace clearing leaves an
empty remainder of a nonempty text, `match_token` is invoked on the empty
string and — when no token pattern matches the empty string — the call
fails with `NoMatchError` carrying an empty diagnostic. -/
theorem claim_c7 :
    (∀ (A : Type) (tz : Tokenizer A) (fuel : Nat),
      tz.tokenize (fuel + 1) [] = some (.ok [])) ∧
    tzC7.tokenize 50 ['a'] = some (.ok [(.ta, ['a'])]) ∧
    (∀ (A : Type) (tz : Tokenizer A) (fuel : Nat) (text : List Char)
      (result : List (A × List Char)),
      text ≠ [] →
      clear_white_spaces fuel tz.white_spaces_chars text = some [] →
      (∀ p ∈ tz.regex_patterns, rxFind p.2 [] = none) →
      tokenizeGo (fuel + 1) tz text result = some (.err (.noMatchError []))) := by
  refine ⟨?_, by decide, ?_⟩
  · intro A tz fuel
    rfl
  · intro A tz fuel text result hne hcl hps
    have hmt : tz.match_token [] = .err (.noMatchError []) :=
      match_token_aux_nil_text _ hps
    simp [tokenizeGo, hne, hcl, hmt]

/-- Claim C7 witness: the no-match-on-empty-remainder shape evaluated on
the concrete tokenizer at the all-whitespace input. -/
theorem claim_c7_witness :
    tokenizeGo 50 tzC7 [' '] [] = some (.err (.noMatchError [])) := by
  exact claim_c7.2.2 TTok tzC7 49 [' '] [] (by decide) (by decide) (by decide)

/-- Claim C8 counterexample: for the lexicon `[(T0,"a|b")]` — a pattern
with top-level alternation, which the claim explicitly includes — the
compiled regex is `^a|b`, whose second branch is unanchored: tokenizing
`"xb"` finds `"b"` at offset 1, emits the lexeme `"b"` with remainder `""`,
silently discarding `"x"`; the emitted lexeme is not a prefix of the text
that remained at that point. -/
theorem claim_c8_counterexample :
    tzC8.tokenize 50 ['x', 'b'] = some (.ok [(.t0, ['b'])]) ∧
    tzC8.match_token ['x', 'b'] = .ok (.t0, ['b'], []) ∧
    ['x', 'b'].take ['b'].length ≠ ['b'] := by
  exact ⟨by decide, by decide, by decide⟩

/-- Claim C8 (amended): the prepended `^` anchors a pattern only as a whole
when the pattern has no top-level alternation; under that proviso every
match starts at offset 0 and every lexeme `match_token` emits is a prefix of
the remaining text (with the returned remainder being the rest); a pattern
with top-level alternation can match at a later offset, and then the text
before the match is silently discarded.  A whitespace skip always removes a
prefix of the remaining text, since the code keeps the suffix from the
match's end. -/
theorem claim_c8 :
    (∀ (r : Rx), hasTopAlt r = false → ∀ (t : List Char) (s e : Nat),
      rxFind (anchorRx r) t = some (s, e) → s = 0) ∧
    (∀ (A : Type) (tokens : List (A × Rx)) (ws : List Rx) (text : List Char)
      (name : A) (lex rest : List Char),
      (∀ p ∈ tokens, hasTopAlt p.2 = false) →
      (Tokenizer.new tokens ws).match_token text = .ok (name, lex, rest) →
      lex ++ rest = text) ∧
    (∀ (ws : List Rx) (text t2 : List Char),
      wsStep ws text = some t2 → ∃ pre, pre ++ t2 = text) := by
  refine ⟨?_, ?_, ?_⟩
  · intro r hr t s e h
    exact rxFind_anchor_start hr h
  · intro A tokens ws text name lex rest hps h
    apply match_token_aux_lex ?_ h
    intro p hp
    have hp2 : p ∈ tokens.map (fun q => (q.1, anchorRx q.2)) := hp
    obtain ⟨q, hq, rfl⟩ := List.mem_map.mp hp2
    exact ⟨q.2, rfl, hps q hq⟩
  · intro ws text t2 h
    exact wsStep_suffix h

/-- Claim C8 witness: the lexeme-is-a-prefix rule applied to the
alternation-free `"if"`/`"[a-z]+"` lexicon on the text `"if"`. -/
theorem claim_c8_witness :
    (['i', 'f'] : List Char) ++ [] = ['i', 'f'] := by
  exact claim_c8.2.1 TTok [(TTok.kw, .lit ['i', 'f']), (TTok.id, .clsPlus 'a' 'z')]
    [.lit [' ']] ['i', 'f'] TTok.kw ['i', 'f'] [] (by decide) (by decide)

/-- Claim C10: a bug in `match_token` — on the no-match path the diagnostic
byte slice `&text[0..10.min(text.len())]` does not always fall on a
character boundary, so `tokenize` is not total: with the lexicon `[(A,"a")]`
and the input `"€€€€"` (twelve bytes, character boundaries at multiples of
three), byte index 10 splits a character and the call panics instead of
returning `NoMatchError`. -/
theorem claim_c10 :
    tzC10.tokenize 50 "€€€€".toList = some TRes.panicked ∧
    byteLen "€€€€".toList = 12 ∧
    slicePrefixBytes "€€€€".toList (min 10 (byteLen "€€€€".toList)) = none := by
  exact ⟨by decide, by decide, by decide⟩

end VCad
